import Mathlib

/-!
Verification of the numbered-directory core of the `testdir` repository
(`src/numbered_dir.rs`), as a shallow embedding.

The filesystem is modelled from the point of view of a single parent
directory and a single `base`:

* `FsState.dirs` is the list of numeric suffixes `n` such that the
  directory `{base}-{n}` currently exists, in directory-enumeration order
  (the scanner of `numbered_dir.rs` yields entries in an unspecified
  order; the list fixes one concrete order).
* `FsState.hasCurrent` records whether a `{base}-current` entry exists.

Fallible filesystem primitives are modelled with explicit fault oracles
(`Faults`): `fs::create_dir` fails with `alreadyExists` exactly when the
target is present, and with an arbitrary injected error code otherwise
when the oracle says so; `fs::remove_dir_all`, the removal of the stale
`-current` link and `symlink_dir` fail exactly when their oracle says so.
All functions are translated directly from `numbered_dir.rs`.
-/

/-- The number of values of `u16`. -/
def u16Mod : Nat := 65536

/-- `u16::MAX`. -/
def u16Max : Nat := 65535

/-- `u16::wrapping_add` on values represented as `Nat`. -/
def wrapAdd (a b : Nat) : Nat := (a + b) % u16Mod

/-- `u16::wrapping_sub` on values represented as `Nat`. -/
def wrapSub (a b : Nat) : Nat := (a + (u16Mod - b % u16Mod)) % u16Mod

/-- `current.wrapping_sub(keep as u16).wrapping_add(1)` from `remove_obsolete_dirs`. -/
def oldestToKeep (current keep : Nat) : Nat := wrapAdd (wrapSub current keep) 1

/-- `current.wrapping_add(u16::MAX / 2)` from `remove_obsolete_dirs`. -/
def oldestToDelete (current : Nat) : Nat := wrapAdd current (u16Max / 2)

/-- The per-entry deletion test of `remove_obsolete_dirs`:
`(oldest_to_keep > oldest_to_delete && (n < oldest_to_keep && n >= oldest_to_delete))
 || (oldest_to_keep < oldest_to_delete && (n < oldest_to_keep || n >= oldest_to_delete))`. -/
def shouldDelete (current keep n : Nat) : Bool :=
  (decide (oldestToDelete current < oldestToKeep current keep)
      && (decide (n < oldestToKeep current keep)
          && decide (oldestToDelete current ≤ n)))
    || (decide (oldestToKeep current keep < oldestToDelete current)
      && (decide (n < oldestToKeep current keep)
          || decide (oldestToDelete current ≤ n)))

/-- Errors of the underlying filesystem primitives: a `create_dir` call
either hits an existing entry (`ErrorKind::AlreadyExists`) or fails with
some other OS error, represented by an opaque numeric code. -/
inductive IoErr where
  | alreadyExists
  | other (code : Nat)
deriving DecidableEq

/-- Errors surfaced by the embedded functions, mirroring the `anyhow`
errors and the panic of `numbered_dir.rs`. -/
inductive Err where
  /-- "base must not contain path separators" -/
  | invalidBase
  /-- the `assert!(oldest_to_keep != oldest_to_delete)` panic -/
  | assertFail
  /-- "Failed to remove {dir}" while retiring the entry numbered `n` -/
  | removeFail (n : Nat)
  /-- "Failed to remove obsolete {base}-current symlink" -/
  | removeLinkFail
  /-- "Failed to create numbered dir", wrapping the last underlying error -/
  | createFailed (last : Option IoErr)
  /-- "subdir conflict: all filename alternatives exhausted" -/
  | subdirExhausted
deriving DecidableEq

/-- Filesystem state of the parent directory, restricted to one `base`:
the numeric suffixes of the existing `{base}-{n}` entries, and whether a
`{base}-current` entry exists. -/
structure FsState where
  dirs : List Nat
  hasCurrent : Bool
deriving DecidableEq

/-- Fault oracles for the filesystem primitives.  `createFault n = some c`
makes `fs::create_dir` on `{base}-{n}` fail with OS error `c` even though
the entry does not exist; `removeFault n` makes `fs::remove_dir_all` on
`{base}-{n}` fail; `removeLinkFault` makes removal of the stale
`{base}-current` entry fail; `symlinkFault` makes `symlink_dir` fail. -/
structure Faults where
  createFault : Nat → Option Nat
  removeFault : Nat → Bool
  removeLinkFault : Bool
  symlinkFault : Bool

/-- `fs::create_dir` on `{base}-{n}`: fails with `AlreadyExists` when the
entry exists, with the injected error otherwise when the oracle says so,
and otherwise creates the entry. -/
def fsCreateDir (faults : Faults) (s : FsState) (n : Nat) : Except IoErr FsState :=
  if n ∈ s.dirs then Except.error IoErr.alreadyExists
  else
    match faults.createFault n with
    | some c => Except.error (IoErr.other c)
    | none => Except.ok { s with dirs := s.dirs ++ [n] }

/-- The result type of a successful allocation: the model of the
`NumberedDir` struct (its `path` and `base` are determined by `base` and
`number`, so only the number is carried). -/
structure NumberedDir where
  number : Nat
deriving DecidableEq

/-- The retry loop of `create_next_dir`, with the remaining attempt budget
made explicit as `fuel` (the source runs `for _i in 0..16`).  On a
successful `create_dir` it performs the `{base}-current` handling: if the
entry exists, removing it must succeed (hard error otherwise), then
`symlink_dir(..).ok()` is attempted and its failure ignored.  On any
creation error the count is incremented (wrapping) and the attempt
retried, remembering the error. -/
def createNextDirGo (faults : Faults) :
    Nat → Nat → Option IoErr → FsState → Except Err NumberedDir × FsState
  | 0, _, lastErr, s => (Except.error (Err.createFailed lastErr), s)
  | fuel + 1, n, _lastErr, s =>
    match fsCreateDir faults s n with
    | Except.ok s1 =>
      if s1.hasCurrent then
        if faults.removeLinkFault then (Except.error Err.removeLinkFail, s1)
        else (Except.ok ⟨n⟩, { s1 with hasCurrent := !faults.symlinkFault })
      else (Except.ok ⟨n⟩, { s1 with hasCurrent := !faults.symlinkFault })
    | Except.error e => createNextDirGo faults fuel (wrapAdd n 1) (some e) s

/-- `create_next_dir`: 16 attempts starting at `next_count`. -/
def createNextDir (faults : Faults) (s : FsState) (nextCount : Nat) :
    Except Err NumberedDir × FsState :=
  createNextDirGo faults 16 nextCount none s

/-- The loop body of `remove_obsolete_dirs`: walk the scanned entries in
order; each entry in the delete arc is removed with `fs::remove_dir_all`,
and a removal failure aborts the walk immediately (the `?` operator),
leaving the remaining entries untouched.  Returns the surviving entries
together with the error, if any. -/
def removeLoop (current keep : Nat) (fault : Nat → Bool) :
    List Nat → List Nat × Option Err
  | [] => ([], none)
  | n :: rest =>
    if shouldDelete current keep n then
      if fault n then (n :: rest, some (Err.removeFail n))
      else removeLoop current keep fault rest
    else
      let r := removeLoop current keep fault rest
      (n :: r.1, r.2)

/-- `remove_obsolete_dirs`: the `assert!(oldest_to_keep != oldest_to_delete)`
panic is modelled as the distinguished error `Err.assertFail` (state
untouched); otherwise the removal walk runs. -/
def removeObsoleteDirs (current keep : Nat) (fault : Nat → Bool) (l : List Nat) :
    List Nat × Option Err :=
  if oldestToKeep current keep = oldestToDelete current then (l, some Err.assertFail)
  else removeLoop current keep fault l

/-- `current_entry_count`: the maximum numeric suffix among the scanned
entries, `none` when there are none (`Iterator::max`). -/
def currentEntryCount (l : List Nat) : Option Nat :=
  l.foldl (fun acc n =>
    match acc with
    | none => some n
    | some m => some (Nat.max m n)) none

/-- The base validation of `NumberedDir::create`:
`base.contains('/') || base.contains('\\')` must be false. -/
def validBase (base : String) : Bool :=
  !(base.data.any (fun c => c == '/' || c == '\x5c'))

/-- `NumberedDir::create`: validate the base, scan for the current highest
number, retire obsolete entries with `keep = count - 1` (propagating any
retirement error with `?`), then create the next numbered directory.  If
no entry exists the candidate is `0` and retirement is skipped. -/
def NumberedDir.create (faults : Faults) (s : FsState) (base : String) (count : Nat) :
    Except Err NumberedDir × FsState :=
  if validBase base then
    match currentEntryCount s.dirs with
    | some current =>
      match removeObsoleteDirs current (count - 1) faults.removeFault s.dirs with
      | (dirs1, some e) => (Except.error e, { s with dirs := dirs1 })
      | (dirs1, none) => createNextDir faults { s with dirs := dirs1 } (wrapAdd current 1)
    | none => createNextDir faults s 0
  else (Except.error Err.invalidBase, s)

/-- `k` sequential calls of `NumberedDir::create`, returning the list of
per-call results (the allocated numbers) and the final state. -/
def allocSeq (faults : Faults) (base : String) (count : Nat) :
    Nat → FsState → List (Except Err Nat) × FsState
  | 0, s => ([], s)
  | k + 1, s =>
    let r := NumberedDir.create faults s base count
    let rest := allocSeq faults base count k r.2
    ((r.1.map NumberedDir.number) :: rest.1, rest.2)

/-! ### The subdirectory carver (`create_subdir`)

`create_subdir` resolves collisions on the final path component by
appending `-0`, `-1`, ... to the original leaf name.  For a fixed leaf
the candidate names are the unsuffixed leaf and the suffixed leaves,
pairwise distinct (decimal rendering of distinct numbers after the same
`"-"` yields distinct strings); the names are modelled by that shape. -/

/-- A candidate name for the final component: the unsuffixed leaf
(`plain`) or the leaf with `-{i}` appended (`suffixed i`). -/
inductive SubName where
  | plain
  | suffixed (i : Nat)
deriving DecidableEq

/-- The name tried at attempt index `j`: the original leaf first, then
`leaf-0`, `leaf-1`, ... -/
def nameAt : Nat → SubName
  | 0 => SubName.plain
  | j + 1 => SubName.suffixed j

/-- `fs::create_dir` on a subdirectory candidate name, with its own
fault oracle. -/
def fsCreateSubdir (fault : SubName → Option Nat) (st : List SubName) (name : SubName) :
    Except IoErr (List SubName) :=
  if name ∈ st then Except.error IoErr.alreadyExists
  else
    match fault name with
    | some c => Except.error (IoErr.other c)
    | none => Except.ok (st ++ [name])

/-- The collision loop of `create_subdir` (`for i in 0..u16::MAX`): try
the candidate at index `i`; on any error move to the next suffix; when
the budget runs out fail with "all filename alternatives exhausted". -/
def createSubdirGo (fault : SubName → Option Nat) :
    Nat → Nat → List SubName → Except Err SubName × List SubName
  | 0, _, st => (Except.error Err.subdirExhausted, st)
  | fuel + 1, i, st =>
    match fsCreateSubdir fault st (nameAt i) with
    | Except.ok st1 => (Except.ok (nameAt i), st1)
    | Except.error _ => createSubdirGo fault fuel (i + 1) st

/-- `create_subdir` for a plain leaf name: `u16::MAX` attempts starting
from the unsuffixed leaf. -/
def createSubdir (fault : SubName → Option Nat) (st : List SubName) :
    Except Err SubName × List SubName :=
  createSubdirGo fault u16Max 0 st

/-- `n` sequential `create_subdir` calls with the same leaf name. -/
def carveSeq (fault : SubName → Option Nat) :
    Nat → List SubName → List (Except Err SubName) × List SubName
  | 0, st => ([], st)
  | n + 1, st =>
    let r := createSubdir fault st
    let rest := carveSeq fault n r.2
    (r.1 :: rest.1, rest.2)

/-- An environment whose only possible failures are removals of obsolete
directories: `fs::create_dir`, the `-current` link removal and
`symlink_dir` all succeed. -/
def removeOnlyFaults (rf : Nat → Bool) : Faults :=
  ⟨fun _ => none, rf, false, false⟩

/-- A fault-free environment. -/
def noFaults : Faults := removeOnlyFaults (fun _ => false)

/-! ### Spec-side definitions

The spec describes the retirement arc over "the fixed-width numeric
type" with a constant `NUMERIC_RANGE`; the code's counterpart of
`NUMERIC_RANGE / 2` is `u16::MAX / 2`, so `NUMERIC_RANGE` denotes
`u16::MAX`.  The spec formulas are rendered independently of the code,
over the integers with explicit reduction modulo 2^16. -/

/-- The top of the numeric range (`u16::MAX`), as named by the spec. -/
def NUMERIC_RANGE : Nat := 65535

/-- Modelled from the spec: `oldest_to_keep = current - keep + 1` with
wraparound (modular) arithmetic. -/
def specOldestToKeep (current keep : Nat) : Int :=
  ((current : Int) - (keep : Int) + 1) % 65536

/-- Modelled from the spec: `oldest_to_delete = current + (NUMERIC_RANGE / 2)`
with wraparound (modular) arithmetic. -/
def specOldestToDelete (current : Nat) : Int :=
  ((current : Int) + ((NUMERIC_RANGE : Int) / 2)) % 65536

/-- Modelled from the spec: the delete arc.  Non-wrapped case
(`oldest_to_keep < oldest_to_delete`): delete where
`number < oldest_to_keep || number >= oldest_to_delete`.  Wrapped case
(`oldest_to_keep > oldest_to_delete`): delete where
`number < oldest_to_keep && number >= oldest_to_delete`. -/
def specDeleteArc (current keep n : Nat) : Prop :=
  (specOldestToKeep current keep < specOldestToDelete current ∧
    ((n : Int) < specOldestToKeep current keep ∨
      specOldestToDelete current ≤ (n : Int))) ∨
  (specOldestToDelete current < specOldestToKeep current keep ∧
    ((n : Int) < specOldestToKeep current keep ∧
      specOldestToDelete current ≤ (n : Int)))

instance (current keep n : Nat) : Decidable (specDeleteArc current keep n) := by
  unfold specDeleteArc
  infer_instance

/-! ## Helper lemmas -/

/-- With no removal faults, the retirement walk keeps exactly the entries
outside the delete arc and reports no error. -/
theorem removeLoop_noFault (current keep : Nat) (l : List Nat) :
    removeLoop current keep (fun _ => false) l
      = (l.filter (fun m => !shouldDelete current keep m), none) := by
  induction l with
  | nil => rfl
  | cons n rest ih =>
    by_cases h : shouldDelete current keep n = true
    · simp [removeLoop, h, List.filter, ih]
    · simp only [Bool.not_eq_true] at h
      simp [removeLoop, h, List.filter, ih]

/-- The arithmetic heart of claims C1/C2/C7: the boolean delete test,
fully unfolded to modular arithmetic, agrees with the spec's arc. -/
theorem shouldDelete_iff_specArc (current keep n : Nat)
    (_hc : current < 65536) (hk : keep < 256) (_hn : n < 65536) :
    shouldDelete current keep n = true ↔ specDeleteArc current keep n := by
  simp only [shouldDelete, oldestToKeep, oldestToDelete, wrapAdd, wrapSub, u16Mod, u16Max,
    specDeleteArc, specOldestToKeep, specOldestToDelete, NUMERIC_RANGE,
    Bool.or_eq_true, Bool.and_eq_true, decide_eq_true_eq]
  omega

/-! ## Claims -/

/-- Claim C1: for every current number, keep count and entry number, the
retirement policy deletes the entry iff its number lies in the delete arc
determined by `oldest_to_keep = current - keep + 1` and
`oldest_to_delete = current + (NUMERIC_RANGE / 2)` in wrapping u16
arithmetic: in the non-wrapped case delete iff
`number < oldest_to_keep || number >= oldest_to_delete`, in the wrapped
case delete iff `number < oldest_to_keep && number >= oldest_to_delete`.
Stated both for the boolean test of `remove_obsolete_dirs` and for actual
removal by the (fault-free) retirement walk. -/
theorem claim1_retirement_arc :
    (∀ current keep n : Nat, current < 65536 → keep < 256 → n < 65536 →
      (shouldDelete current keep n = true ↔ specDeleteArc current keep n)) ∧
    (∀ (current keep n : Nat) (l : List Nat),
      current < 65536 → keep < 256 → n < 65536 → n ∈ l →
      ((n ∉ (removeLoop current keep (fun _ => false) l).1) ↔
        specDeleteArc current keep n)) := by
  constructor
  · exact fun current keep n hc hk hn => shouldDelete_iff_specArc current keep n hc hk hn
  · intro current keep n l hc hk hn hmem
    rw [removeLoop_noFault]
    rw [← shouldDelete_iff_specArc current keep n hc hk hn]
    simp [List.mem_filter, hmem]

/-- Claim C1, witness: the theorem applied at `current = 3`, `keep = 2`,
entry `0` among entries `[0, 1, 2, 3]`. -/
theorem claim1_retirement_arc_witness :
    (shouldDelete 3 2 0 = true ↔ specDeleteArc 3 2 0) ∧
    ((0 ∉ (removeLoop 3 2 (fun _ => false) [0, 1, 2, 3]).1) ↔ specDeleteArc 3 2 0) :=
  ⟨claim1_retirement_arc.1 3 2 0 (by decide) (by decide) (by decide),
   claim1_retirement_arc.2 3 2 0 [0, 1, 2, 3] (by decide) (by decide) (by decide)
     (by decide)⟩

/-- Claim C2: for every current number and keep count arising from a
valid retention count (`keep = count - 1`, `1 ≤ count ≤ 255`), the arc
test never marks for deletion an entry strictly ahead of `current` on the
wrapping u16 ring: one whose wrapping distance from `current` is at least
1 and less than half the numeric range. -/
theorem claim2_never_delete_ahead (current n count : Nat)
    (_hc : current < 65536) (hn : n < 65536)
    (hcount1 : 1 ≤ count) (hcount2 : count ≤ 255)
    (hahead1 : 1 ≤ (n + 65536 - current) % 65536)
    (hahead2 : (n + 65536 - current) % 65536 < NUMERIC_RANGE / 2) :
    shouldDelete current (count - 1) n = false := by
  simp only [NUMERIC_RANGE] at hahead2
  simp only [shouldDelete, oldestToKeep, oldestToDelete, wrapAdd, wrapSub, u16Mod, u16Max,
    Bool.or_eq_false_iff, Bool.and_eq_false_iff, decide_eq_false_iff_not, not_lt, not_le]
  omega

/-- Claim C2, witness: `current = 65534` near the top of the range, a
racer's entry numbered `1` just above the wrap point, retention count 3:
the entry is not marked for deletion. -/
theorem claim2_never_delete_ahead_witness :
    shouldDelete 65534 (3 - 1) 1 = false :=
  claim2_never_delete_ahead 65534 1 3 (by decide) (by decide) (by decide) (by decide)
    (by decide) (by decide)

/-- The `assert!` guard can never trip for a keep value in the `u8` range:
`oldest_to_keep = oldest_to_delete` would need `keep ≡ 32770 (mod 65536)`. -/
theorem oldestToKeep_ne_oldestToDelete (current keep : Nat) (hk : keep < 256) :
    oldestToKeep current keep ≠ oldestToDelete current := by
  simp only [oldestToKeep, oldestToDelete, wrapAdd, wrapSub, u16Mod, u16Max]
  omega

/-- The creation retry loop only fails with `createFailed` or
`removeLinkFail`, never with the retirement assertion. -/
theorem createNextDirGo_fst_ne_assert (faults : Faults) :
    ∀ fuel n le s,
      (createNextDirGo faults fuel n le s).1 ≠ Except.error Err.assertFail := by
  intro fuel
  induction fuel with
  | zero => intro n le s; simp [createNextDirGo]
  | succ f ih =>
    intro n le s
    simp only [createNextDirGo]
    cases hcr : fsCreateDir faults s n with
    | ok s1 =>
      by_cases h1 : s1.hasCurrent <;> by_cases h2 : faults.removeLinkFault <;>
        simp [h1, h2]
    | error e => exact ih (wrapAdd n 1) (some e) s

/-- The retirement walk only fails with `removeFail`. -/
theorem removeLoop_snd_ne_assert (current keep : Nat) (fault : Nat → Bool) :
    ∀ l, (removeLoop current keep fault l).2 ≠ some Err.assertFail := by
  intro l
  induction l with
  | nil => simp [removeLoop]
  | cons n rest ih =>
    simp only [removeLoop]
    by_cases h1 : shouldDelete current keep n <;> by_cases h2 : fault n <;>
      simp [h1, h2, ih]

/-- Claim C7: the retirement policy fails loudly (the modelled assertion)
whenever `oldest_to_keep = oldest_to_delete`; for every keep value
reachable from a valid retention count (`keep = count - 1`,
`1 ≤ count ≤ 255`) the two never coincide; and consequently no
allocation made through `NumberedDir::create` can ever surface the
assertion failure. -/
theorem claim7_assert_unreachable :
    (∀ (current keep : Nat) (fault : Nat → Bool) (l : List Nat),
      oldestToKeep current keep = oldestToDelete current →
      removeObsoleteDirs current keep fault l = (l, some Err.assertFail)) ∧
    (∀ current count : Nat, 1 ≤ count → count ≤ 255 →
      oldestToKeep current (count - 1) ≠ oldestToDelete current) ∧
    (∀ (faults : Faults) (s : FsState) (base : String) (count : Nat),
      1 ≤ count → count ≤ 255 →
      (NumberedDir.create faults s base count).1 ≠ Except.error Err.assertFail) := by
  refine ⟨?_, ?_, ?_⟩
  · intro current keep fault l heq
    simp [removeObsoleteDirs, heq]
  · intro current count h1 h2
    exact oldestToKeep_ne_oldestToDelete current (count - 1) (by omega)
  · intro faults s base count h1 h2
    simp only [NumberedDir.create]
    by_cases hb : validBase base
    · simp only [hb, if_true]
      cases hcur : currentEntryCount s.dirs with
      | none => exact createNextDirGo_fst_ne_assert faults 16 0 none s
      | some current =>
        have hne := oldestToKeep_ne_oldestToDelete current (count - 1) (by omega)
        simp only [removeObsoleteDirs, hne, if_false]
        cases hrl : removeLoop current (count - 1) faults.removeFault s.dirs with
        | mk l1 e =>
          cases e with
          | none => exact createNextDirGo_fst_ne_assert faults 16 (wrapAdd current 1) none _
          | some err =>
            intro hcontra
            have herr : err = Err.assertFail := by simpa using hcontra
            have hloop := removeLoop_snd_ne_assert current (count - 1) faults.removeFault s.dirs
            rw [hrl, herr] at hloop
            exact hloop rfl
    · simp [hb]

/-- Claim C7, witness: the assertion fires at `current = 5`,
`keep = 32770` (a keep value not reachable from any valid retention
count); for `current = 5`, `count = 3` the two bounds differ; and a
concrete fault-free allocation does not surface the assertion failure. -/
theorem claim7_assert_unreachable_witness :
    removeObsoleteDirs 5 32770 (fun _ => false) [1, 2] = ([1, 2], some Err.assertFail) ∧
    oldestToKeep 5 (3 - 1) ≠ oldestToDelete 5 ∧
    (NumberedDir.create noFaults ⟨[0, 1], true⟩ "t" 3).1 ≠ Except.error Err.assertFail :=
  ⟨claim7_assert_unreachable.1 5 32770 (fun _ => false) [1, 2] (by decide),
   claim7_assert_unreachable.2.1 5 3 (by decide) (by decide),
   claim7_assert_unreachable.2.2 noFaults ⟨[0, 1], true⟩ "t" 3 (by decide) (by decide)⟩

/-- One successful `create_dir` step of the creation retry loop. -/
theorem createNextDirGo_succ_ok (faults : Faults) (fuel n : Nat) (le : Option IoErr)
    (s s1 : FsState) (hcr : fsCreateDir faults s n = Except.ok s1) :
    createNextDirGo faults (fuel + 1) n le s
      = if s1.hasCurrent then
          if faults.removeLinkFault then (Except.error Err.removeLinkFail, s1)
          else (Except.ok ⟨n⟩, { s1 with hasCurrent := !faults.symlinkFault })
        else (Except.ok ⟨n⟩, { s1 with hasCurrent := !faults.symlinkFault }) := by
  simp only [createNextDirGo, hcr]

/-- One failed `create_dir` step of the creation retry loop: any error
makes it increment the candidate (wrapping) and retry. -/
theorem createNextDirGo_succ_err (faults : Faults) (fuel n : Nat) (le : Option IoErr)
    (s : FsState) (e : IoErr) (hcr : fsCreateDir faults s n = Except.error e) :
    createNextDirGo faults (fuel + 1) n le s
      = createNextDirGo faults fuel (wrapAdd n 1) (some e) s := by
  simp only [createNextDirGo, hcr]

/-- The current maximum over the entries `0, ..., j`. -/
theorem currentEntryCount_range (j : Nat) :
    currentEntryCount (List.range (j + 1)) = some j := by
  induction j with
  | zero => rfl
  | succ j ih =>
    rw [currentEntryCount, List.range_succ, List.foldl_append]
    rw [currentEntryCount] at ih
    rw [ih]
    simp [Nat.max_eq_right (Nat.le_succ j)]

/-- When the retention window is wider than the set of existing entries,
nothing at or below `current` is in the delete arc. -/
theorem shouldDelete_false_of_recent (c k m : Nat)
    (hm : m ≤ c) (hck : c < k) (hk : k ≤ 254) :
    shouldDelete c k m = false := by
  simp only [shouldDelete, oldestToKeep, oldestToDelete, wrapAdd, wrapSub, u16Mod, u16Max,
    Bool.or_eq_false_iff, Bool.and_eq_false_iff, decide_eq_false_iff_not, not_lt, not_le]
  omega

/-- A retirement walk in which no entry is in the delete arc removes
nothing and consults no removal oracle. -/
theorem removeLoop_keepAll (c k : Nat) (fault : Nat → Bool) :
    ∀ l, (∀ m ∈ l, shouldDelete c k m = false) →
      removeLoop c k fault l = (l, none) := by
  intro l
  induction l with
  | nil => intro _; rfl
  | cons n rest ih =>
    intro h
    have hn := h n (List.mem_cons_self n rest)
    simp only [removeLoop, hn, Bool.false_eq_true, if_false]
    rw [ih (fun m hm => h m (List.mem_cons_of_mem n hm))]

/-- One allocation against a parent holding exactly the entries
`0, ..., i - 1`, in an environment where only obsolete-directory removal
may fail: it succeeds with number `i` and leaves `0, ..., i`, updating
the `-current` link. -/
theorem create_step (rf : Nat → Bool) (base : String) (count i : Nat) (b : Bool)
    (hb : validBase base = true) (hi : i < count) (hcount : count ≤ 255) :
    NumberedDir.create (removeOnlyFaults rf) ⟨List.range i, b⟩ base count
      = (Except.ok ⟨i⟩, ⟨List.range (i + 1), true⟩) := by
  cases i with
  | zero =>
    simp only [NumberedDir.create, hb, if_true]
    cases b <;> rfl
  | succ j =>
    simp only [NumberedDir.create, hb, if_true]
    have hmax : currentEntryCount (FsState.mk (List.range (j + 1)) b).dirs = some j :=
      currentEntryCount_range j
    rw [hmax]
    have hne : oldestToKeep j (count - 1) ≠ oldestToDelete j :=
      oldestToKeep_ne_oldestToDelete j (count - 1) (by omega)
    have hkeep : removeLoop j (count - 1) (removeOnlyFaults rf).removeFault
        (List.range (j + 1)) = (List.range (j + 1), none) := by
      refine removeLoop_keepAll j (count - 1) _ (List.range (j + 1)) ?_
      intro m hm
      have hmj : m < j + 1 := List.mem_range.mp hm
      exact shouldDelete_false_of_recent j (count - 1) m (by omega) (by omega) (by omega)
    simp only [removeObsoleteDirs, hne, if_false, hkeep]
    have hw : wrapAdd j 1 = j + 1 := by
      simp only [wrapAdd, u16Mod]
      omega
    rw [hw]
    have hmem : (j + 1) ∉ List.range (j + 1) := by simp
    have hcr : fsCreateDir (removeOnlyFaults rf) ⟨List.range (j + 1), b⟩ (j + 1)
        = Except.ok ⟨List.range (j + 1) ++ [j + 1], b⟩ := by
      simp [fsCreateDir, hmem, removeOnlyFaults]
    rw [createNextDir,
      show (16 : Nat) = 15 + 1 from rfl,
      createNextDirGo_succ_ok (removeOnlyFaults rf) 15 (j + 1) none _ _ hcr]
    have hrange : List.range (j + 1) ++ [j + 1] = List.range (j + 1 + 1) :=
      (List.range_succ (j + 1)).symm
    cases b <;> simp [removeOnlyFaults, hrange]

/-- One step of `allocSeq`. -/
theorem allocSeq_succ (faults : Faults) (base : String) (count k : Nat) (s : FsState) :
    allocSeq faults base count (k + 1) s
      = (((NumberedDir.create faults s base count).1.map NumberedDir.number)
          :: (allocSeq faults base count k (NumberedDir.create faults s base count).2).1,
        (allocSeq faults base count k (NumberedDir.create faults s base count).2).2) := rfl

/-- Running `m` further allocations from a parent holding `0, ..., i - 1`:
each succeeds with the next number in sequence. -/
theorem allocSeq_run (rf : Nat → Bool) (base : String) (count : Nat)
    (hb : validBase base = true) (hcount : count ≤ 255) :
    ∀ (m i : Nat) (b : Bool), 1 ≤ m → i + m ≤ count →
      allocSeq (removeOnlyFaults rf) base count m ⟨List.range i, b⟩
        = ((List.range' i m).map Except.ok, ⟨List.range (i + m), true⟩) := by
  intro m
  induction m with
  | zero => intro i b h1 h2; omega
  | succ m ih =>
    intro i b h1 h2
    have hstep := create_step rf base count i b hb (by omega) hcount
    cases m with
    | zero =>
      simp [allocSeq, hstep, List.range', Except.map]
    | succ m' =>
      have hrest := ih (i + 1) true (by omega) (by omega)
      rw [allocSeq_succ, hstep]
      simp only
      rw [hrest]
      have h1' : i + 1 + (m' + 1) = i + (m' + 1 + 1) := by omega
      rw [h1', List.range'_succ i (m' + 1) 1]
      simp [Except.map]

/-- Claim C3: for every valid base (no path separators) and every
retention count `1 ≤ k ≤ 255`, performing `k` sequential allocations with
`NumberedDir::create` against an initially empty parent succeeds each
time and leaves exactly the numbered directories `0, 1, ..., k - 1`; in
particular the first allocation uses number 0.  The removal oracle `rf`
is universally quantified, so no removal is ever attempted: retirement
deletes nothing during the whole run (and is skipped outright on the
first, empty-parent allocation). -/
theorem claim3_sequential_allocations (base : String) (count : Nat) (rf : Nat → Bool)
    (hb : validBase base = true) (h1 : 1 ≤ count) (h2 : count ≤ 255) :
    allocSeq (removeOnlyFaults rf) base count count ⟨[], false⟩
      = ((List.range count).map Except.ok, ⟨List.range count, true⟩) := by
  have h := allocSeq_run rf base count hb h2 count 0 false h1 (by omega)
  rw [show List.range' 0 count = List.range count from (List.range_eq_range' count).symm] at h
  simpa using h

/-- Claim C3, witness: base `"t"`, retention count 3, three allocations
from an empty parent, with an adversarial removal oracle that would fail
any attempted removal: all three succeed with numbers 0, 1, 2. -/
theorem claim3_sequential_allocations_witness :
    allocSeq (removeOnlyFaults (fun _ => true)) "t" 3 3 ⟨[], false⟩
      = ((List.range 3).map Except.ok, ⟨List.range 3, true⟩) :=
  claim3_sequential_allocations "t" 3 (fun _ => true) (by decide) (by decide) (by decide)

/-- Claim C4 (amended): a failure of the retirement policy to remove an
obsolete directory tree aborts the whole allocation.  The error from
`remove_obsolete_dirs` propagates out of `NumberedDir::create` (the `?`
operator) before any creation attempt is made, so no new numbered
directory is created and none is returned; the parent keeps the
already-surviving entries of the interrupted walk. -/
theorem claim4_retirement_failure_aborts (faults : Faults) (s : FsState)
    (base : String) (count current : Nat) (l1 : List Nat) (e : Err)
    (hb : validBase base = true)
    (hcur : currentEntryCount s.dirs = some current)
    (hrem : removeObsoleteDirs current (count - 1) faults.removeFault s.dirs
      = (l1, some e)) :
    NumberedDir.create faults s base count = (Except.error e, ⟨l1, s.hasCurrent⟩) := by
  simp only [NumberedDir.create, hb, if_true, hcur, hrem]

/-- Claim C4, counterexample: entries `[0, 1, 2, 3]`, retention count 3,
removal of entry 0 fails.  The allocation as a whole fails with that
retirement error and the parent state is unchanged: no new numbered
directory (`base-4`) was created or returned, contradicting the claim
that a retirement failure leaves the triggering allocation successful. -/
theorem claim4_counterexample :
    NumberedDir.create (removeOnlyFaults (fun n => n == 0)) ⟨[0, 1, 2, 3], true⟩ "t" 3
      = (Except.error (Err.removeFail 0), ⟨[0, 1, 2, 3], true⟩) := by
  rfl

/-- Claim C4 (amended), witness: entries `[0, 1, 2, 3, 4]`, retention
count 3, removal of entry 1 fails after entry 0 was already removed: the
allocation fails with the retirement error and keeps `[1, 2, 3, 4]`. -/
theorem claim4_retirement_failure_aborts_witness :
    NumberedDir.create (removeOnlyFaults (fun n => n == 1)) ⟨[0, 1, 2, 3, 4], true⟩ "t" 3
      = (Except.error (Err.removeFail 1), ⟨[1, 2, 3, 4], true⟩) :=
  claim4_retirement_failure_aborts (removeOnlyFaults (fun n => n == 1))
    ⟨[0, 1, 2, 3, 4], true⟩ "t" 3 4 [1, 2, 3, 4] (Err.removeFail 1)
    (by decide) (by decide) (by decide)

/-- One failed step of the subdirectory collision loop: any error makes
it move to the next suffix and retry. -/
theorem createSubdirGo_succ_err (fault : SubName → Option Nat) (fuel i : Nat)
    (st : List SubName) (e : IoErr)
    (hcr : fsCreateSubdir fault st (nameAt i) = Except.error e) :
    createSubdirGo fault (fuel + 1) i st = createSubdirGo fault fuel (i + 1) st := by
  simp only [createSubdirGo, hcr]

/-- One successful step of the subdirectory collision loop. -/
theorem createSubdirGo_succ_ok (fault : SubName → Option Nat) (fuel i : Nat)
    (st st1 : List SubName)
    (hcr : fsCreateSubdir fault st (nameAt i) = Except.ok st1) :
    createSubdirGo fault (fuel + 1) i st = (Except.ok (nameAt i), st1) := by
  simp only [createSubdirGo, hcr]

/-- Claim C5 (amended): neither creation loop distinguishes error kinds.
In both the allocator's numbered-directory loop and the carver's
subdirectory loop, every creation error — already-exists or any other
filesystem error — consumes one attempt and triggers the
increment-and-retry behaviour; no error is propagated immediately. -/
theorem claim5_any_error_retries :
    (∀ (faults : Faults) (fuel n : Nat) (le : Option IoErr) (s : FsState) (e : IoErr),
      fsCreateDir faults s n = Except.error e →
      createNextDirGo faults (fuel + 1) n le s
        = createNextDirGo faults fuel (wrapAdd n 1) (some e) s) ∧
    (∀ (fault : SubName → Option Nat) (fuel i : Nat) (st : List SubName) (e : IoErr),
      fsCreateSubdir fault st (nameAt i) = Except.error e →
      createSubdirGo fault (fuel + 1) i st = createSubdirGo fault fuel (i + 1) st) :=
  ⟨fun faults fuel n le s e h => createNextDirGo_succ_err faults fuel n le s e h,
   fun fault fuel i st e h => createSubdirGo_succ_err fault fuel i st e h⟩

/-- Claim C5, counterexample: a non-already-exists error (OS error 13,
permission denied, injected on candidate 5, which does not exist) is not
propagated: the allocator's loop retries and the allocation succeeds
with the next number 6. -/
theorem claim5_counterexample :
    fsCreateDir ⟨fun n => if n == 5 then some 13 else none, fun _ => false, false, false⟩
        ⟨[], false⟩ 5
      = Except.error (IoErr.other 13) ∧
    createNextDir ⟨fun n => if n == 5 then some 13 else none, fun _ => false, false, false⟩
        ⟨[], false⟩ 5
      = (Except.ok ⟨6⟩, ⟨[6], true⟩) :=
  ⟨rfl, rfl⟩

/-- Claim C5 (amended), witness: the amended theorem applied to an
injected permission-denied error in the allocator loop and to an
injected error in the carver loop. -/
theorem claim5_any_error_retries_witness :
    createNextDirGo ⟨fun n => if n == 5 then some 13 else none, fun _ => false, false, false⟩
        (15 + 1) 5 none ⟨[], false⟩
      = createNextDirGo ⟨fun n => if n == 5 then some 13 else none, fun _ => false, false, false⟩
          15 (wrapAdd 5 1) (some (IoErr.other 13)) ⟨[], false⟩ ∧
    createSubdirGo (fun _ => some 7) (3 + 1) 0 []
      = createSubdirGo (fun _ => some 7) 3 (0 + 1) [] :=
  ⟨claim5_any_error_retries.1 _ 15 5 none ⟨[], false⟩ (IoErr.other 13) rfl,
   claim5_any_error_retries.2 (fun _ => some 7) 3 0 [] (IoErr.other 7) rfl⟩

/-- Composing two wrapping increments. -/
theorem wrapAdd_wrapAdd (a b c : Nat) : wrapAdd (wrapAdd a b) c = wrapAdd a (b + c) := by
  simp only [wrapAdd, u16Mod]
  omega

/-- If every one of the remaining `fuel` attempts fails, the retry loop
returns the hard allocation error wrapping the error of the very last
attempt, and the state is untouched. -/
theorem createNextDirGo_allFail (faults : Faults) :
    ∀ (fuel n : Nat) (le : Option IoErr) (s : FsState), 0 < fuel → n < 65536 →
      (∀ i, i < fuel → ∃ e, fsCreateDir faults s (wrapAdd n i) = Except.error e) →
      ∃ e, fsCreateDir faults s (wrapAdd n (fuel - 1)) = Except.error e ∧
        createNextDirGo faults fuel n le s
          = (Except.error (Err.createFailed (some e)), s) := by
  intro fuel
  induction fuel with
  | zero => intro n le s h0 _ _; exact absurd h0 (by omega)
  | succ f ih =>
    intro n le s _h0 hn hall
    obtain ⟨e0, he0⟩ := hall 0 (by omega)
    have hn0 : wrapAdd n 0 = n := by
      simp only [wrapAdd, u16Mod]
      omega
    rw [hn0] at he0
    cases Nat.eq_zero_or_pos f with
    | inl hf0 =>
      subst hf0
      refine ⟨e0, ?_, ?_⟩
      · simpa [hn0] using he0
      · rw [createNextDirGo_succ_err faults 0 n le s e0 he0]
        rfl
    | inr hfpos =>
      have hn1 : wrapAdd n 1 < 65536 := by
        simp only [wrapAdd, u16Mod]
        omega
      have hall' : ∀ i, i < f →
          ∃ e, fsCreateDir faults s (wrapAdd (wrapAdd n 1) i) = Except.error e := by
        intro i hi
        rw [wrapAdd_wrapAdd n 1 i, Nat.add_comm 1 i]
        exact hall (i + 1) (by omega)
      obtain ⟨e, he1, he2⟩ := ih (wrapAdd n 1) (some e0) s hfpos hn1 hall'
      refine ⟨e, ?_, ?_⟩
      · rw [wrapAdd_wrapAdd n 1 (f - 1)] at he1
        have : 1 + (f - 1) = f + 1 - 1 := by omega
        rw [this] at he1
        exact he1
      · rw [createNextDirGo_succ_err faults f n le s e0 he0]
        exact he2

/-- Claim C6: a colliding candidate (the directory already exists) makes
the allocator increment the candidate number, wrapping, and retry; and
when all 16 attempts fail the allocation returns the hard error carrying
the last underlying creation error — never success. -/
theorem claim6_collision_retry_bound :
    (∀ (faults : Faults) (s : FsState) (fuel n : Nat) (le : Option IoErr),
      n ∈ s.dirs →
      createNextDirGo faults (fuel + 1) n le s
        = createNextDirGo faults fuel (wrapAdd n 1) (some IoErr.alreadyExists) s) ∧
    (∀ (faults : Faults) (s : FsState) (n : Nat), n < 65536 →
      (∀ i, i < 16 → ∃ e, fsCreateDir faults s (wrapAdd n i) = Except.error e) →
      ∃ e, fsCreateDir faults s (wrapAdd n 15) = Except.error e ∧
        createNextDir faults s n = (Except.error (Err.createFailed (some e)), s)) := by
  constructor
  · intro faults s fuel n le hmem
    have hcr : fsCreateDir faults s n = Except.error IoErr.alreadyExists := by
      simp [fsCreateDir, hmem]
    exact createNextDirGo_succ_err faults fuel n le s IoErr.alreadyExists hcr
  · intro faults s n hn hall
    have h := createNextDirGo_allFail faults 16 n none s (by omega) hn hall
    simpa [createNextDir] using h

/-- Claim C6, witness: all sixteen candidates `0, ..., 15` already exist;
the first attempt collides and retries with candidate 1, and the full
allocation fails hard with the last already-exists error. -/
theorem claim6_collision_retry_bound_witness :
    (createNextDirGo noFaults (7 + 1) 0 none ⟨List.range 16, true⟩
      = createNextDirGo noFaults 7 (wrapAdd 0 1) (some IoErr.alreadyExists)
          ⟨List.range 16, true⟩) ∧
    ∃ e, fsCreateDir noFaults ⟨List.range 16, true⟩ (wrapAdd 0 15) = Except.error e ∧
      createNextDir noFaults ⟨List.range 16, true⟩ 0
        = (Except.error (Err.createFailed (some e)), ⟨List.range 16, true⟩) :=
  ⟨claim6_collision_retry_bound.1 noFaults ⟨List.range 16, true⟩ 7 0 none (by decide),
   claim6_collision_retry_bound.2 noFaults ⟨List.range 16, true⟩ 0 (by decide)
     (fun i hi => ⟨IoErr.alreadyExists, by
        have hmem : wrapAdd 0 i ∈ List.range 16 := by
          rw [List.mem_range]
          simp only [wrapAdd, u16Mod]
          omega
        simp [fsCreateDir, hmem]⟩)⟩

/-- Claim C8: once the numbered directory is created, a pre-existing
`{base}-current` entry whose removal fails is a hard error (the state
keeps the new directory but the call fails); in every other case the
allocation succeeds, whether or not the creation of the new symbolic
link fails (its failure only leaves `hasCurrent` false). -/
theorem claim8_current_link_policy :
    (∀ (faults : Faults) (s : FsState) (n : Nat) (s1 : FsState),
      fsCreateDir faults s n = Except.ok s1 →
      (s1.hasCurrent = true → faults.removeLinkFault = false) →
      createNextDir faults s n = (Except.ok ⟨n⟩, ⟨s1.dirs, !faults.symlinkFault⟩)) ∧
    (∀ (faults : Faults) (s : FsState) (n : Nat) (s1 : FsState),
      fsCreateDir faults s n = Except.ok s1 →
      s1.hasCurrent = true → faults.removeLinkFault = true →
      createNextDir faults s n = (Except.error Err.removeLinkFail, s1)) := by
  constructor
  · intro faults s n s1 hcr himp
    rw [createNextDir, show (16 : Nat) = 15 + 1 from rfl,
      createNextDirGo_succ_ok faults 15 n none s s1 hcr]
    by_cases h1 : s1.hasCurrent = true
    · simp [h1, himp h1]
    · simp only [Bool.not_eq_true] at h1
      simp [h1]
  · intro faults s n s1 hcr h1 h2
    rw [createNextDir, show (16 : Nat) = 15 + 1 from rfl,
      createNextDirGo_succ_ok faults 15 n none s s1 hcr]
    simp [h1, h2]

/-- Claim C8, witness: with a failing `symlink_dir` the allocation still
succeeds (and no `-current` entry exists afterwards); with a
pre-existing `-current` entry and a failing removal, the allocation
fails hard with the new directory already on disk. -/
theorem claim8_current_link_policy_witness :
    createNextDir ⟨fun _ => none, fun _ => false, false, true⟩ ⟨[], false⟩ 0
      = (Except.ok ⟨0⟩, ⟨[0], false⟩) ∧
    createNextDir ⟨fun _ => none, fun _ => false, true, false⟩ ⟨[], true⟩ 0
      = (Except.error Err.removeLinkFail, ⟨[0], true⟩) :=
  ⟨claim8_current_link_policy.1 ⟨fun _ => none, fun _ => false, false, true⟩
      ⟨[], false⟩ 0 ⟨[0], false⟩ rfl (fun h => by cases h),
   claim8_current_link_policy.2 ⟨fun _ => none, fun _ => false, true, false⟩
      ⟨[], true⟩ 0 ⟨[0], true⟩ rfl rfl rfl⟩

/-- The retirement walk never invents entries: every survivor was present. -/
theorem removeLoop_subset (c k : Nat) (fault : Nat → Bool) :
    ∀ l, ∀ n, n ∈ (removeLoop c k fault l).1 → n ∈ l := by
  intro l
  induction l with
  | nil => intro n h; simp [removeLoop] at h
  | cons m rest ih =>
    intro n h
    by_cases hdel : shouldDelete c k m = true
    · by_cases hf : fault m = true
      · simpa [removeLoop, hdel, hf] using h
      · simp only [Bool.not_eq_true] at hf
        simp only [removeLoop, hdel, hf, Bool.false_eq_true, if_true, if_false] at h
        exact List.mem_cons_of_mem m (ih n h)
    · simp only [Bool.not_eq_true] at hdel
      simp only [removeLoop, hdel, Bool.false_eq_true, if_false, List.mem_cons] at h
      cases h with
      | inl h => exact h ▸ List.mem_cons_self m rest
      | inr h => exact List.mem_cons_of_mem m (ih n h)

/-- When the retirement walk completes without error, every entry of the
delete arc has really been removed. -/
theorem removeLoop_removed (c k : Nat) (fault : Nat → Bool) :
    ∀ l l1, removeLoop c k fault l = (l1, none) →
      ∀ n, n ∈ l → shouldDelete c k n = true → n ∉ l1 := by
  intro l
  induction l with
  | nil =>
    intro l1 hrun n hn _
    exact absurd hn (List.not_mem_nil n)
  | cons m rest ih =>
    intro l1 hrun n hn hdel hinl1
    by_cases hdelm : shouldDelete c k m = true
    · by_cases hf : fault m = true
      · simp [removeLoop, hdelm, hf] at hrun
      · simp only [Bool.not_eq_true] at hf
        simp only [removeLoop, hdelm, hf, Bool.false_eq_true, if_true, if_false] at hrun
        have hrest : n ∈ rest := by
          have := removeLoop_subset c k fault rest n
          rw [hrun] at this
          exact this hinl1
        exact ih l1 hrun n hrest hdel hinl1
    · simp only [Bool.not_eq_true] at hdelm
      simp only [removeLoop, hdelm, Bool.false_eq_true, if_false] at hrun
      have h1 : m :: (removeLoop c k fault rest).1 = l1 := congrArg Prod.fst hrun
      have h2 : (removeLoop c k fault rest).2 = none := congrArg Prod.snd hrun
      cases List.mem_cons.mp hn with
      | inl hnm =>
        rw [hnm] at hdel
        rw [hdel] at hdelm
        cases hdelm
      | inr hnrest =>
        have hym : n ∈ m :: (removeLoop c k fault rest).1 := h1.symm ▸ hinl1
        cases List.mem_cons.mp hym with
        | inl hnm =>
          rw [hnm] at hdel
          rw [hdel] at hdelm
          cases hdelm
        | inr hinrest1 =>
          have hpair : removeLoop c k fault rest
              = ((removeLoop c k fault rest).1, none) := by
            rw [← h2]
          exact ih (removeLoop c k fault rest).1 hpair n hnrest hdel hinrest1

/-- When the retry loop fails with the hard allocation error, it never
created anything: the state is exactly the input state. -/
theorem createNextDirGo_createFailed_state (faults : Faults) :
    ∀ (fuel n : Nat) (le e : Option IoErr) (s : FsState),
      (createNextDirGo faults fuel n le s).1 = Except.error (Err.createFailed e) →
      (createNextDirGo faults fuel n le s).2 = s := by
  intro fuel
  induction fuel with
  | zero => intro n le e s _; rfl
  | succ f ih =>
    intro n le e s h
    cases hcr : fsCreateDir faults s n with
    | ok s1 =>
      rw [createNextDirGo_succ_ok faults f n le s s1 hcr] at h
      by_cases h1 : s1.hasCurrent = true <;> by_cases h2 : faults.removeLinkFault = true <;>
        simp [h1, h2] at h
    | error e1 =>
      rw [createNextDirGo_succ_err faults f n le s e1 hcr] at h ⊢
      exact ih (wrapAdd n 1) (some e1) e s h

/-- Claim C10: `NumberedDir::create` is not atomic on failure.  If the
retirement walk ran to completion (removing every entry of the delete
arc) and the subsequent creation loop then fails hard, the entries
removed by retirement stay deleted: the final state is exactly the
post-retirement state, which no longer contains the retired entry `n`. -/
theorem claim10_no_rollback (faults : Faults) (s : FsState) (base : String)
    (count current n : Nat) (l1 : List Nat) (e : Option IoErr)
    (hb : validBase base = true)
    (hcur : currentEntryCount s.dirs = some current)
    (hrem : removeObsoleteDirs current (count - 1) faults.removeFault s.dirs = (l1, none))
    (hn : n ∈ s.dirs) (hdel : shouldDelete current (count - 1) n = true)
    (hfail : (NumberedDir.create faults s base count).1
      = Except.error (Err.createFailed e)) :
    (NumberedDir.create faults s base count).2.dirs = l1 ∧
      n ∉ (NumberedDir.create faults s base count).2.dirs := by
  have hne : oldestToKeep current (count - 1) ≠ oldestToDelete current := by
    intro hcontra
    rw [removeObsoleteDirs, if_pos hcontra] at hrem
    simp at hrem
  have hloop : removeLoop current (count - 1) faults.removeFault s.dirs = (l1, none) := by
    rw [removeObsoleteDirs, if_neg hne] at hrem
    exact hrem
  have hnotin : n ∉ l1 :=
    removeLoop_removed current (count - 1) faults.removeFault s.dirs l1 hloop n hn hdel
  have hcreate : NumberedDir.create faults s base count
      = createNextDir faults ⟨l1, s.hasCurrent⟩ (wrapAdd current 1) := by
    simp only [NumberedDir.create, hb, if_true, hcur, hrem]
  rw [hcreate] at hfail ⊢
  have hstate : (createNextDir faults ⟨l1, s.hasCurrent⟩ (wrapAdd current 1)).2
      = ⟨l1, s.hasCurrent⟩ := by
    rw [createNextDir] at hfail ⊢
    exact createNextDirGo_createFailed_state faults 16 (wrapAdd current 1) none e
      ⟨l1, s.hasCurrent⟩ hfail
  rw [hstate]
  exact ⟨rfl, hnotin⟩

/-- Claim C10, witness: entries `[0, 1, 2, 3]`, retention count 3; the
retirement walk removes 0 and 1, then every creation attempt fails with
an injected OS error, so the allocation fails — and entries 0 and 1 stay
deleted (final entries `[2, 3]`). -/
theorem claim10_no_rollback_witness :
    (NumberedDir.create ⟨fun _ => some 5, fun _ => false, false, false⟩
        ⟨[0, 1, 2, 3], true⟩ "t" 3).2.dirs = [2, 3] ∧
    0 ∉ (NumberedDir.create ⟨fun _ => some 5, fun _ => false, false, false⟩
        ⟨[0, 1, 2, 3], true⟩ "t" 3).2.dirs :=
  claim10_no_rollback ⟨fun _ => some 5, fun _ => false, false, false⟩
    ⟨[0, 1, 2, 3], true⟩ "t" 3 3 0 [2, 3] (some (IoErr.other 5))
    (by decide) (by decide) (by decide) (by decide) (by decide) rfl

/-- Candidate names for distinct attempt indices are distinct. -/
theorem nameAt_inj (a b : Nat) (h : nameAt a = nameAt b) : a = b := by
  cases a with
  | zero =>
    cases b with
    | zero => rfl
    | succ b => simp [nameAt] at h
  | succ a =>
    cases b with
    | zero => simp [nameAt] at h
    | succ b =>
      simp only [nameAt, SubName.suffixed.injEq] at h
      omega

/-- One step of `carveSeq`. -/
theorem carveSeq_succ (fault : SubName → Option Nat) (n : Nat) (st : List SubName) :
    carveSeq fault (n + 1) st
      = ((createSubdir fault st).1 :: (carveSeq fault n (createSubdir fault st).2).1,
        (carveSeq fault n (createSubdir fault st).2).2) := rfl

/-- If the first `j` candidates collide (or otherwise fail) and the
`j`-th succeeds within the budget, the carver loop returns exactly that
candidate. -/
theorem createSubdirGo_skipCollisions (fault : SubName → Option Nat) :
    ∀ (j fuel i : Nat) (st st1 : List SubName), j < fuel →
      (∀ k, k < j → ∃ e, fsCreateSubdir fault st (nameAt (i + k)) = Except.error e) →
      fsCreateSubdir fault st (nameAt (i + j)) = Except.ok st1 →
      createSubdirGo fault fuel i st = (Except.ok (nameAt (i + j)), st1) := by
  intro j
  induction j with
  | zero =>
    intro fuel i st st1 hj _ hok
    cases fuel with
    | zero => omega
    | succ f =>
      rw [Nat.add_zero] at hok
      rw [createSubdirGo_succ_ok fault f i st st1 hok, Nat.add_zero]
  | succ j ih =>
    intro fuel i st st1 hj hcoll hok
    obtain ⟨e0, he0⟩ := hcoll 0 (by omega)
    rw [Nat.add_zero] at he0
    cases fuel with
    | zero => omega
    | succ f =>
      rw [createSubdirGo_succ_err fault f i st e0 he0]
      have hcoll' : ∀ k, k < j →
          ∃ e, fsCreateSubdir fault st (nameAt (i + 1 + k)) = Except.error e := by
        intro k hk
        have h := hcoll (k + 1) (by omega)
        rw [show i + (k + 1) = i + 1 + k by omega] at h
        exact h
      have hok' : fsCreateSubdir fault st (nameAt (i + 1 + j)) = Except.ok st1 := by
        rw [show i + 1 + j = i + (j + 1) by omega]
        exact hok
      rw [ih f (i + 1) st st1 (by omega) hcoll' hok']
      rw [show i + 1 + j = i + (j + 1) by omega]

/-- If every candidate within the remaining budget fails, the carver
loop exhausts all filename alternatives and leaves the state untouched. -/
theorem createSubdirGo_allCollide (fault : SubName → Option Nat) :
    ∀ (fuel i : Nat) (st : List SubName),
      (∀ k, k < fuel → ∃ e, fsCreateSubdir fault st (nameAt (i + k)) = Except.error e) →
      createSubdirGo fault fuel i st = (Except.error Err.subdirExhausted, st) := by
  intro fuel
  induction fuel with
  | zero => intro i st _; rfl
  | succ f ih =>
    intro i st hcoll
    obtain ⟨e0, he0⟩ := hcoll 0 (by omega)
    rw [Nat.add_zero] at he0
    rw [createSubdirGo_succ_err fault f i st e0 he0]
    apply ih (i + 1) st
    intro k hk
    have h := hcoll (k + 1) (by omega)
    rw [show i + (k + 1) = i + 1 + k by omega] at h
    exact h

/-- Every already-created candidate collides. -/
theorem fsCreateSubdir_collides (j k : Nat) (hk : k < j) :
    fsCreateSubdir (fun _ => none) ((List.range j).map nameAt) (nameAt (0 + k))
      = Except.error IoErr.alreadyExists := by
  have hmem : nameAt (0 + k) ∈ (List.range j).map nameAt := by
    rw [Nat.zero_add]
    exact List.mem_map_of_mem nameAt (List.mem_range.mpr hk)
  simp only [fsCreateSubdir]
  rw [if_pos hmem]

/-- One `create_subdir` call after `j` earlier calls with the same leaf:
it walks the `j` colliding candidates and creates the `j`-th one. -/
theorem createSubdir_step (j : Nat) (hj : j < 65535) :
    createSubdir (fun _ => none) ((List.range j).map nameAt)
      = (Except.ok (nameAt j), (List.range (j + 1)).map nameAt) := by
  have hnot : nameAt j ∉ (List.range j).map nameAt := by
    intro hcontra
    obtain ⟨m, hm, hEq⟩ := List.mem_map.mp hcontra
    have hmj := nameAt_inj m j hEq
    rw [hmj] at hm
    have := List.mem_range.mp hm
    omega
  have hok : fsCreateSubdir (fun _ => none) ((List.range j).map nameAt) (nameAt (0 + j))
      = Except.ok ((List.range j).map nameAt ++ [nameAt (0 + j)]) := by
    rw [Nat.zero_add]
    simp [fsCreateSubdir, hnot]
  have hrun := createSubdirGo_skipCollisions (fun _ => none) j 65535 0
    ((List.range j).map nameAt) _ (by omega)
    (fun k hk => ⟨IoErr.alreadyExists, fsCreateSubdir_collides j k hk⟩) hok
  rw [createSubdir, show u16Max = 65535 from rfl, hrun, Nat.zero_add]
  rw [List.range_succ, List.map_append]
  simp

/-- Running `m` further carve calls after `j` earlier ones, within the
attempt budget: each call succeeds with the next candidate name. -/
theorem carveSeq_run :
    ∀ (m j : Nat), j + m ≤ 65535 →
      carveSeq (fun _ => none) m ((List.range j).map nameAt)
        = ((List.range' j m).map (fun i => Except.ok (nameAt i)),
          (List.range (j + m)).map nameAt) := by
  intro m
  induction m with
  | zero =>
    intro j h
    simp [carveSeq]
  | succ m ih =>
    intro j h
    have hstep := createSubdir_step j (by omega)
    rw [carveSeq_succ, hstep]
    simp only
    rw [ih (j + 1) (by omega)]
    rw [show j + 1 + m = j + (m + 1) by omega]
    rw [List.range'_succ j m 1]
    simp

/-- Claim C9 (amended): for every `1 ≤ n ≤ 65535` (the carver's attempt
budget, `u16::MAX`), calling `create_subdir` `n` times in a row with the
same relative leaf name succeeds each time and yields `n` pairwise
distinct directories that all exist simultaneously: the unsuffixed
original plus the suffixed names `-0` through `-(n-2)`. -/
theorem claim9_repeated_carve (n : Nat) (_h1 : 1 ≤ n) (h2 : n ≤ 65535) :
    (carveSeq (fun _ => none) n []
      = ((List.range n).map (fun i => Except.ok (nameAt i)), (List.range n).map nameAt)) ∧
    ((List.range n).map nameAt).Nodup := by
  constructor
  · have h := carveSeq_run n 0 (by omega)
    rw [show ((List.range 0).map nameAt) = ([] : List SubName) from rfl] at h
    rw [show List.range' 0 n = List.range n from (List.range_eq_range' n).symm] at h
    simpa using h
  · exact (List.nodup_range n).map (fun a b => nameAt_inj a b)

/-- Splitting a run of carve calls. -/
theorem carveSeq_append (fault : SubName → Option Nat) :
    ∀ (a b : Nat) (st : List SubName),
      carveSeq fault (a + b) st
        = ((carveSeq fault a st).1 ++ (carveSeq fault b (carveSeq fault a st).2).1,
          (carveSeq fault b (carveSeq fault a st).2).2) := by
  intro a
  induction a with
  | zero =>
    intro b st
    rw [Nat.zero_add]
    simp [carveSeq]
  | succ a ih =>
    intro b st
    rw [show a + 1 + b = (a + b) + 1 by omega]
    rw [carveSeq_succ, carveSeq_succ]
    simp only
    rw [ih b (createSubdir fault st).2]
    simp

/-- Claim C9, counterexample: at `n = 65536` the claim fails.  The first
65535 calls succeed, but the 65536-th walks all 65535 candidate names
(the unsuffixed leaf and suffixes `-0` through `-65533`), finds them all
taken, and fails with "all filename alternatives exhausted" instead of
yielding a 65536-th directory. -/
theorem claim9_counterexample :
    carveSeq (fun _ => none) 65536 []
      = ((List.range 65535).map (fun i => Except.ok (nameAt i))
          ++ [Except.error Err.subdirExhausted],
        (List.range 65535).map nameAt) := by
  have h1 := carveSeq_run 65535 0 (by omega)
  rw [show ((List.range 0).map nameAt) = ([] : List SubName) from rfl] at h1
  rw [show List.range' 0 65535 = List.range 65535 from (List.range_eq_range' 65535).symm] at h1
  rw [Nat.zero_add] at h1
  have hfail := createSubdirGo_allCollide (fun _ => none) 65535 0
    ((List.range 65535).map nameAt)
    (fun k hk => ⟨IoErr.alreadyExists, fsCreateSubdir_collides 65535 k hk⟩)
  rw [show (65536 : Nat) = 65535 + 1 from rfl]
  rw [carveSeq_append (fun _ => none) 65535 1 []]
  rw [h1]
  simp only
  rw [show (1 : Nat) = 0 + 1 from rfl, carveSeq_succ]
  rw [createSubdir, show u16Max = 65535 from rfl, hfail]
  simp [carveSeq]

/-- Claim C9 (amended), witness: three carve calls with the same leaf
yield the unsuffixed directory plus suffixes `-0` and `-1`, all distinct
and all present. -/
theorem claim9_repeated_carve_witness :
    (carveSeq (fun _ => none) 3 []
      = ((List.range 3).map (fun i => Except.ok (nameAt i)), (List.range 3).map nameAt)) ∧
    ((List.range 3).map nameAt).Nodup :=
  claim9_repeated_carve 3 (by decide) (by decide)
